import Mathlib

/-!
Formal model of `SimpleTimer` (src/include/simple_timer/simple_timer.h).

Durations and time points are modelled as integers counting
`steady_clock` ticks (nanoseconds).  The scheduling loop launched by
`SimpleTimer::start` is modelled as a deterministic interpreter driven
by per-iteration environments describing which control-plane events
reach the loop at each of its two blocking points (the paused
`cv_.wait` and the timed `cv_.wait_until`) and whether the task throws
at a fire.  Control-plane operations are also recorded as action
traces over the gate (mutex / field writes / notify) so that the
locking discipline of each public member function can be audited.
-/

namespace SimpleTimer

/-- Timer state, from `enum class State` in the source. -/
inductive State
  | Stopped
  | Running
  | Paused
  deriving DecidableEq, Repr

/-- The shared fields coordinated through the gate: `state_`, `interval_`
and `interval_changed_` (the `one_shot_` flag is fixed per timer and kept
separately). -/
structure Ctl where
  state_ : State
  interval_ : Int
  interval_changed_ : Bool
  deriving DecidableEq, Repr

/-- Construction (`SimpleTimer::SimpleTimer`): the interval is stored
verbatim, `state_` is `Stopped`, `interval_changed_` defaults to `false`.
The constructor performs no validation of the interval. -/
def mkCtl (d : Int) : Ctl :=
  { state_ := .Stopped, interval_ := d, interval_changed_ := false }

/-- `SimpleTimer::interval()`: `duration_cast` of the stored tick count to
milliseconds, i.e. division by 10^6 truncating toward zero. -/
def interval (c : Ctl) : Int :=
  Int.tdiv c.interval_ 1000000

/-- `SimpleTimer::is_running()`. -/
def is_running (c : Ctl) : Bool :=
  c.state_ == .Running

/-- `SimpleTimer::is_paused()`. -/
def is_paused (c : Ctl) : Bool :=
  c.state_ == .Paused

/-- `SimpleTimer::is_stopped()`. -/
def is_stopped (c : Ctl) : Bool :=
  c.state_ == .Stopped

/-- Control-plane operations on the shared fields. -/
inductive ControlOp
  | pause
  | resume
  | stop
  | set_interval (d : Int)
  deriving DecidableEq, Repr

/-- Effect of each control operation on the shared fields, read off the
bodies of `pause` (store `Paused` only when `Running`), `resume` (store
`Running` only when `Paused`), `stop` (store `Stopped` unconditionally) and
`set_interval` (store the new interval and raise `interval_changed_`). -/
def applyOp : ControlOp → Ctl → Ctl
  | .pause, c => if c.state_ = .Running then { c with state_ := .Paused } else c
  | .resume, c => if c.state_ = .Paused then { c with state_ := .Running } else c
  | .stop, c => { c with state_ := .Stopped }
  | .set_interval d, c => { c with interval_ := d, interval_changed_ := true }

/-- Loop-local observable state: the shared fields, the deadline
`next_time`, plus instrumentation counting task invocations (`fires`) and
diagnostic reports emitted by the catch blocks (`diags`). -/
structure LoopSt where
  ctl : Ctl
  next_time : Int
  fires : Nat
  diags : Nat
  deriving DecidableEq, Repr

/-- Result of the paused inner `while`: either it exits with the updated
shared state and deadline, or the loop is still blocked inside `cv_.wait`
with no wake event left. -/
inductive PauseRes
  | done (c : Ctl) (nt : Int)
  | blocked (c : Ctl)
  deriving DecidableEq, Repr

/-- The inner `while (state_ == Paused) { cv_.wait(lock, pred); next_time =
clock::now() + interval_; }` loop (lines 128-132).  Each event is a control
operation waking the wait, paired with the clock reading at that wake; the
wait returns once `state_ != Paused`, after which the deadline is recomputed
from the wake instant. -/
def pausePhase : Int → Ctl → List (ControlOp × Int) → PauseRes
  | nt, c, evs =>
    if c.state_ = .Paused then
      match evs with
      | [] => .blocked c
      | (o, now) :: rest =>
        let c2 := applyOp o c
        if c2.state_ = .Paused then pausePhase nt c2 rest
        else pausePhase (now + c2.interval_) c2 rest
    else .done c nt

/-- Result of `cv_.wait_until(lock, next_time, pred)`: woken with the
predicate true before the deadline, or timed out at the deadline. -/
inductive WaitRes
  | woken (c : Ctl) (now : Int)
  | timedOut (c : Ctl)
  deriving DecidableEq, Repr

/-- The wait predicate of line 134: `state_ != State::Running ||
interval_changed_`. -/
def waitPred (c : Ctl) : Bool :=
  c.state_ != .Running || c.interval_changed_

/-- `cv_.wait_until`: returns `true` immediately when the predicate already
holds on entry; otherwise consumes wake events until one makes the predicate
true, and times out at the deadline when none does. -/
def waitUntil : Int → Ctl → List (ControlOp × Int) → WaitRes
  | entryNow, c, evs =>
    if waitPred c then .woken c entryNow
    else
      match evs with
      | [] => .timedOut c
      | (o, now) :: rest => waitUntil now (applyOp o c) rest

/-- The events reaching one iteration of the scheduling loop: wake events of
the paused wait, the clock reading on entering `wait_until`, wake events of
the timed wait, and whether the task throws if this iteration fires. -/
structure IterEnv where
  pauseEvs : List (ControlOp × Int)
  waitEntryNow : Int
  waitEvs : List (ControlOp × Int)
  throws : Bool
  deriving DecidableEq, Repr

/-- Result of one iteration of the `while (true)` body: continue, `break`
out of the loop, or remain blocked in the paused wait. -/
inductive IterRes
  | cont (s : LoopSt)
  | halt (s : LoopSt)
  | blocked (s : LoopSt)
  deriving DecidableEq, Repr

/-- The loop state carried by an iteration result. -/
def resSt : IterRes → LoopSt
  | .cont s => s
  | .halt s => s
  | .blocked s => s

/-- One iteration of the loop body in `SimpleTimer::start` (lines 121-169):
check `Stopped` and `break`; drain the paused wait; `wait_until` the
deadline; on an early wake either consume an interval change (recompute the
deadline from now with the new interval and clear the flag) or just
re-enter the loop head; on timeout unlock and fire the task — a throw is
caught by storing `Stopped` and emitting one diagnostic — then relock and
either self-stop when `one_shot_` or advance the deadline by the interval. -/
def loopIter (os : Bool) (env : IterEnv) (s : LoopSt) : IterRes :=
  if s.ctl.state_ = .Stopped then .halt s
  else
    match pausePhase s.next_time s.ctl env.pauseEvs with
    | .blocked c => .blocked { s with ctl := c }
    | .done c nt =>
      match waitUntil env.waitEntryNow c env.waitEvs with
      | .woken c2 now =>
        if c2.interval_changed_ then
          .cont { s with ctl := { c2 with interval_changed_ := false },
                         next_time := now + c2.interval_ }
        else
          .cont { s with ctl := c2, next_time := nt }
      | .timedOut c2 =>
        let c3 := if env.throws then { c2 with state_ := .Stopped } else c2
        let d := if env.throws then 1 else 0
        if os then
          .halt { ctl := { c3 with state_ := .Stopped }, next_time := nt,
                  fires := s.fires + 1, diags := s.diags + d }
        else
          .cont { ctl := c3, next_time := nt + c3.interval_,
                  fires := s.fires + 1, diags := s.diags + d }

/-- Run the loop, one environment per iteration; a loop that has `break`-ed
or is blocked consumes nothing further. -/
def run (os : Bool) : LoopSt → List IterEnv → LoopSt
  | s, [] => s
  | s, env :: rest =>
    match loopIter os env s with
    | .cont s2 => run os s2 rest
    | .halt s2 => s2
    | .blocked s2 => s2

/-- Seed state of a freshly spawned loop: `start` stored `Running` before
spawning, and the thread body computes `next_time = clock::now() +
interval_` (line 120). -/
def startLoop (c : Ctl) (now0 : Int) : LoopSt :=
  { ctl := { c with state_ := .Running }, next_time := now0 + c.interval_,
    fires := 0, diags := 0 }

/-- Whole-timer view: the loop-observable state plus the `one_shot_` flag
and the number of live scheduling threads backing `thread_`. -/
structure Sys where
  loop : LoopSt
  os : Bool
  live : Nat
  deriving DecidableEq, Repr

/-- A freshly constructed timer: `Stopped`, no thread ever spawned. -/
def mkTimer (d : Int) (os : Bool) : Sys :=
  { loop := { ctl := mkCtl d, next_time := 0, fires := 0, diags := 0 },
    os := os, live := 0 }

/-- `SimpleTimer::stop` (lines 185-193): store `Stopped`, `notify_all`, and
join the thread if joinable, so no thread remains afterwards. -/
def stopSys (y : Sys) : Sys :=
  { y with loop := { y.loop with ctl := { y.loop.ctl with state_ := .Stopped } },
           live := 0 }

/-- `SimpleTimer::pause` acting on the whole timer. -/
def pauseSys (y : Sys) : Sys :=
  { y with loop := { y.loop with ctl := applyOp .pause y.loop.ctl } }

/-- `SimpleTimer::resume` acting on the whole timer. -/
def resumeSys (y : Sys) : Sys :=
  { y with loop := { y.loop with ctl := applyOp .resume y.loop.ctl } }

/-- The intermediate point inside `start` (line 115) after `state_ =
State::Running` was stored but before the new thread is spawned. -/
def startMid (y : Sys) : Sys :=
  { stopSys y with
      loop := { (stopSys y).loop with
                  ctl := { (stopSys y).loop.ctl with state_ := .Running } } }

/-- `SimpleTimer::start` (lines 112-171): run `stop()` first (joining any
previous loop), store `Running`, then spawn the loop seeded at `now0 +
interval_`. -/
def startSys (y : Sys) (now0 : Int) : Sys :=
  { loop := startLoop (stopSys y).loop.ctl now0, os := y.os, live := 1 }

/-- The shared fields, for the lock-discipline audit of the public control
operations. -/
inductive FieldId
  | stateF
  | intervalF
  | changedF
  deriving DecidableEq, Repr

/-- Primitive actions a control operation performs on the gate and the
shared fields. -/
inductive Action
  | lock
  | unlock
  | write (f : FieldId)
  | notify
  deriving DecidableEq, Repr

/-- `pause()` (lines 196-202): a bare conditional store to the atomic
`state_`; no mutex, no notify. -/
def pauseBody : List Action := [.write .stateF]

/-- `resume()` (lines 205-212): conditional store to `state_`, then
`notify_all`; no mutex. -/
def resumeBody : List Action := [.write .stateF, .notify]

/-- `stop()` (lines 185-193): store to `state_`, `notify_all`, join; no
mutex. -/
def stopBody : List Action := [.write .stateF, .notify]

/-- `set_interval` (lines 223-232): a `lock_guard` scope around the stores
to `interval_` and `interval_changed_`, then `notify_all` after release. -/
def setIntervalBody : List Action :=
  [.lock, .write .intervalF, .write .changedF, .unlock, .notify]

/-- Checks that every write to a shared field happens while the mutex is
held (lock depth positive). -/
def writesLocked : Nat → List Action → Bool
  | _, [] => true
  | d, .lock :: r => writesLocked (d + 1) r
  | d, .unlock :: r => writesLocked (d - 1) r
  | d, .write _ :: r => decide (0 < d) && writesLocked d r
  | d, .notify :: r => writesLocked d r

/-- A loop observing `state_ == Stopped` breaks at the loop head: running it
from a `Stopped` state performs no iteration at all. -/
theorem run_stopped (os : Bool) (s : LoopSt) (envs : List IterEnv)
    (h : s.ctl.state_ = .Stopped) : run os s envs = s := by
  cases envs with
  | nil => rfl
  | cons e rest => simp [run, loopIter, h]

/-- Once a run has reached a `Stopped` state, feeding it further iteration
environments changes nothing. -/
theorem run_append_of_stopped (os : Bool) (s : LoopSt) (xs ys : List IterEnv)
    (h : (run os s xs).ctl.state_ = .Stopped) :
    run os s (xs ++ ys) = run os s xs := by
  induction xs generalizing s with
  | nil =>
    simp only [run] at h
    simpa using run_stopped os s ys h
  | cons x xs ih =>
    simp only [List.cons_append, run] at h ⊢
    cases hi : loopIter os x s with
    | cont s2 => rw [hi] at h; exact ih s2 h
    | halt s2 => rfl
    | blocked s2 => rfl

/-- Case analysis of one iteration in one-shot mode: a continuing or blocked
iteration never fires, and a halting one is `Stopped` and fired at most
once. -/
theorem loopIter_oneShot_cases (e : IterEnv) (s : LoopSt) :
    (∃ s2, loopIter true e s = .cont s2 ∧ s2.fires = s.fires) ∨
    (∃ s2, loopIter true e s = .blocked s2 ∧ s2.fires = s.fires) ∨
    (∃ s2, loopIter true e s = .halt s2 ∧ s2.ctl.state_ = .Stopped ∧
      s2.fires ≤ s.fires + 1) := by
  unfold loopIter
  split
  next h0 =>
    right; right
    exact ⟨s, rfl, h0, Nat.le_succ _⟩
  next h0 =>
    split
    next =>
      right; left
      exact ⟨_, rfl, rfl⟩
    next c nt heq =>
      split
      next c2 now heq2 =>
        split
        next => left; exact ⟨_, rfl, rfl⟩
        next => left; exact ⟨_, rfl, rfl⟩
      next c2 heq2 =>
        split
        next =>
          right; right
          exact ⟨_, rfl, rfl, Nat.le_refl _⟩
        next =>
          right; right
          exact ⟨_, rfl, rfl, Nat.le_refl _⟩

/-- In one-shot mode a run beginning with zero fires ends with at most one,
and `state_` is `Stopped` as soon as the single fire has happened. -/
theorem run_oneShot_fires (envs : List IterEnv) (s : LoopSt) (h : s.fires = 0) :
    (run true s envs).fires ≤ 1 ∧
      ((run true s envs).fires = 1 → (run true s envs).ctl.state_ = .Stopped) := by
  induction envs generalizing s with
  | nil => simp [run, h]
  | cons e rest ih =>
    simp only [run]
    rcases loopIter_oneShot_cases e s with ⟨s2, hi, hf⟩ | ⟨s2, hi, hf⟩ | ⟨s2, hi, hst, hf⟩
    · rw [hi]; exact ih s2 (hf.trans h)
    · rw [hi]
      have h2 : s2.fires = 0 := hf.trans h
      refine ⟨?_, ?_⟩
      · show s2.fires ≤ 1
        omega
      · intro h1
        have h1' : s2.fires = 1 := h1
        exact absurd h1' (by omega)
    · rw [hi]
      refine ⟨?_, ?_⟩
      · show s2.fires ≤ 1
        omega
      · intro h1
        show s2.ctl.state_ = State.Stopped
        exact hst

/-- C1 counterexample: the claim that a non-positive duration is rejected at
the API boundary is false — the constructor stores `-5` verbatim, the stored
interval is not strictly positive, `set_interval 0` stores `0`, and `start`
spawns a scheduling loop in `Running` state with the non-positive interval. -/
theorem nonpositive_interval_accepted :
    (mkCtl (-5)).interval_ = -5 ∧
    ¬(0 < (mkCtl (-5)).interval_) ∧
    (applyOp (.set_interval 0) (mkCtl 7)).interval_ = 0 ∧
    (startSys (mkTimer (-5) false) 0).live = 1 ∧
    is_running (startSys (mkTimer (-5) false) 0).loop.ctl = true := by
  refine ⟨rfl, by decide, rfl, rfl, rfl⟩

/-- C1 amended: no validation occurs at the API boundary — construction and
`set_interval` store any duration, positive or not, unchanged, and `start`
launches the scheduling loop regardless, which still fires on an undisturbed
deadline; the stored interval is exactly the last value set, not necessarily
positive. -/
theorem interval_stored_unvalidated (d now0 n : Int) (os : Bool) (c : Ctl) :
    (mkCtl d).interval_ = d ∧
    (applyOp (.set_interval d) c).interval_ = d ∧
    (startSys (mkTimer d os) now0).live = 1 ∧
    is_running (startSys (mkTimer d os) now0).loop.ctl = true ∧
    (run os (startSys (mkTimer d os) now0).loop [⟨[], n, [], false⟩]).fires = 1 := by
  refine ⟨rfl, rfl, rfl, rfl, ?_⟩
  cases os
  · rfl
  · rfl

/-- C2: a fire whose task throws is caught locally — the resulting iteration
state records exactly one more fire, one more diagnostic report, and
`is_stopped` true (in both one-shot and periodic mode); and any run from a
`Stopped` state performs no iteration at all, so zero further fires occur.
The interpreter returns an `IterRes` value in every case, so nothing
propagates to a control-plane caller. -/
theorem task_throw_stops_loop (os : Bool) (s s2 : LoopSt) (n : Int)
    (envs : List IterEnv)
    (hr : s.ctl.state_ = .Running) (hc : s.ctl.interval_changed_ = false)
    (h2 : s2.ctl.state_ = .Stopped) :
    (resSt (loopIter os ⟨[], n, [], true⟩ s)).fires = s.fires + 1 ∧
    (resSt (loopIter os ⟨[], n, [], true⟩ s)).diags = s.diags + 1 ∧
    is_stopped (resSt (loopIter os ⟨[], n, [], true⟩ s)).ctl = true ∧
    run os s2 envs = s2 := by
  obtain ⟨⟨st, iv, ch⟩, nt, f, dg⟩ := s
  simp only [Ctl.state_] at hr
  simp only [Ctl.interval_changed_] at hc
  subst hr; subst hc
  refine ⟨?_, ?_, ?_, run_stopped _ _ _ h2⟩
  · cases os
    · rfl
    · rfl
  · cases os
    · rfl
    · rfl
  · cases os
    · rfl
    · rfl

/-- C2 witness: a concrete throwing fire of a periodic timer with interval 50
at deadline 100 yields one fire, one diagnostic and a `Stopped` state, and a
subsequent run from the stopped state is inert. -/
theorem task_throw_stops_loop_witness :
    (resSt (loopIter false ⟨[], 0, [], true⟩ ⟨⟨.Running, 50, false⟩, 100, 0, 0⟩)).fires = 1 ∧
    (resSt (loopIter false ⟨[], 0, [], true⟩ ⟨⟨.Running, 50, false⟩, 100, 0, 0⟩)).diags = 1 ∧
    is_stopped (resSt (loopIter false ⟨[], 0, [], true⟩ ⟨⟨.Running, 50, false⟩, 100, 0, 0⟩)).ctl = true ∧
    run false ⟨⟨.Stopped, 50, false⟩, 150, 1, 1⟩ [⟨[], 0, [], false⟩] =
      ⟨⟨.Stopped, 50, false⟩, 150, 1, 1⟩ :=
  task_throw_stops_loop false ⟨⟨.Running, 50, false⟩, 100, 0, 0⟩
    ⟨⟨.Stopped, 50, false⟩, 150, 1, 1⟩ 0 [⟨[], 0, [], false⟩] rfl rfl rfl

/-- C3: a timer constructed with `one_shot = true` and started with a task
that does not throw fires at most once over any sequence of iteration
events; once its single fire has happened `is_stopped` is true and
continuing the run with arbitrarily many further events changes nothing;
and an undisturbed deadline does produce that single fire. -/
theorem one_shot_fires_exactly_once (d now0 n : Int) (envs more : List IterEnv)
    (hnt : ∀ e ∈ envs, e.throws = false) :
    (run true (startLoop (mkCtl d) now0) envs).fires ≤ 1 ∧
    ((run true (startLoop (mkCtl d) now0) envs).fires = 1 →
      is_stopped (run true (startLoop (mkCtl d) now0) envs).ctl = true) ∧
    ((run true (startLoop (mkCtl d) now0) envs).fires = 1 →
      run true (startLoop (mkCtl d) now0) (envs ++ more) =
        run true (startLoop (mkCtl d) now0) envs) ∧
    (run true (startLoop (mkCtl d) now0) [⟨[], n, [], false⟩]).fires = 1 := by
  obtain ⟨h1, h2⟩ := run_oneShot_fires envs (startLoop (mkCtl d) now0) rfl
  refine ⟨h1, ?_, ?_, ?_⟩
  · intro hf
    simp [is_stopped, h2 hf]
  · intro hf
    exact run_append_of_stopped true _ envs more (h2 hf)
  · rfl

/-- C3 witness: a one-shot timer with interval 50 started at time 0 fires
exactly once on its deadline, is stopped immediately after, and appending a
further iteration event changes nothing. -/
theorem one_shot_fires_exactly_once_witness :
    (run true (startLoop (mkCtl 50) 0) [⟨[], 0, [], false⟩]).fires ≤ 1 ∧
    is_stopped (run true (startLoop (mkCtl 50) 0) [⟨[], 0, [], false⟩]).ctl = true ∧
    run true (startLoop (mkCtl 50) 0) ([⟨[], 0, [], false⟩] ++ [⟨[], 9, [], false⟩]) =
      run true (startLoop (mkCtl 50) 0) [⟨[], 0, [], false⟩] ∧
    (run true (startLoop (mkCtl 50) 0) [⟨[], 0, [], false⟩]).fires = 1 :=
  ⟨(one_shot_fires_exactly_once 50 0 0 [⟨[], 0, [], false⟩] [⟨[], 9, [], false⟩] (by decide)).1,
   (one_shot_fires_exactly_once 50 0 0 [⟨[], 0, [], false⟩] [⟨[], 9, [], false⟩] (by decide)).2.1 rfl,
   (one_shot_fires_exactly_once 50 0 0 [⟨[], 0, [], false⟩] [⟨[], 9, [], false⟩] (by decide)).2.2.1 rfl,
   (one_shot_fires_exactly_once 50 0 0 [⟨[], 0, [], false⟩] [⟨[], 9, [], false⟩] (by decide)).2.2.2⟩

/-- C4: an undisturbed periodic fire advances the deadline by adding the
interval to the previous deadline (`next_time += interval_`), not to the
current time — the clock reading `n` of the iteration does not appear in the
resulting deadline, so the cadence keeps the original phase. -/
theorem periodic_advance_drift_free (s : LoopSt) (n : Int)
    (hr : s.ctl.state_ = .Running) (hc : s.ctl.interval_changed_ = false) :
    loopIter false ⟨[], n, [], false⟩ s =
      .cont { s with next_time := s.next_time + s.ctl.interval_,
                     fires := s.fires + 1 } := by
  obtain ⟨⟨st, iv, ch⟩, nt, f, dg⟩ := s
  simp only [Ctl.state_] at hr
  simp only [Ctl.interval_changed_] at hc
  subst hr; subst hc
  rfl

/-- C4 witness: a periodic timer with interval 50 and deadline 100 fires and
moves its deadline to 150, whatever the clock reads. -/
theorem periodic_advance_drift_free_witness :
    loopIter false ⟨[], 123, [], false⟩ ⟨⟨.Running, 50, false⟩, 100, 3, 0⟩ =
      .cont ⟨⟨.Running, 50, false⟩, 150, 4, 0⟩ :=
  periodic_advance_drift_free ⟨⟨.Running, 50, false⟩, 100, 3, 0⟩ 123 rfl rfl

/-- C5: `set_interval` writes the new interval and raises `interval_changed_`
under the mutex and signals the gate afterwards; a running loop woken by it
does not fire, recomputes the deadline as the call time plus the new
interval, clears the flag, and the following undisturbed fire happens one
new interval after the call. -/
theorem set_interval_takes_effect (os : Bool) (s : LoopSt) (d t n : Int)
    (hr : s.ctl.state_ = .Running) (hc : s.ctl.interval_changed_ = false) :
    writesLocked 0 setIntervalBody = true ∧
    Action.notify ∈ setIntervalBody ∧
    loopIter os ⟨[], n, [(.set_interval d, t)], false⟩ s =
      .cont { ctl := { state_ := .Running, interval_ := d, interval_changed_ := false },
              next_time := t + d, fires := s.fires, diags := s.diags } ∧
    loopIter false ⟨[], n, [], false⟩
        ⟨{ state_ := .Running, interval_ := d, interval_changed_ := false },
          t + d, s.fires, s.diags⟩ =
      .cont { ctl := { state_ := .Running, interval_ := d, interval_changed_ := false },
              next_time := (t + d) + d, fires := s.fires + 1, diags := s.diags } := by
  obtain ⟨⟨st, iv, ch⟩, nt, f, dg⟩ := s
  simp only [Ctl.state_] at hr
  simp only [Ctl.interval_changed_] at hc
  subst hr; subst hc
  refine ⟨by decide, by decide, rfl, rfl⟩

/-- C5 witness: with interval 100 and deadline 100, a `set_interval 30`
arriving at time 210 wakes the loop without firing, sets the deadline to
240, clears the flag, and the next fire happens at 240 advancing to 270. -/
theorem set_interval_takes_effect_witness :
    writesLocked 0 setIntervalBody = true ∧
    Action.notify ∈ setIntervalBody ∧
    loopIter false ⟨[], 0, [(.set_interval 30, 210)], false⟩
        ⟨⟨.Running, 100, false⟩, 100, 2, 0⟩ =
      .cont ⟨⟨.Running, 30, false⟩, 240, 2, 0⟩ ∧
    loopIter false ⟨[], 0, [], false⟩ ⟨⟨.Running, 30, false⟩, 240, 2, 0⟩ =
      .cont ⟨⟨.Running, 30, false⟩, 270, 3, 0⟩ :=
  set_interval_takes_effect false ⟨⟨.Running, 100, false⟩, 100, 2, 0⟩ 30 210 0 rfl rfl

/-- C6: `stop` leaves the state `Stopped` with no live thread, signals the
gate, any run after it performs no iteration (no further fire), it is
idempotent, and `stop`, `pause` and `resume` are exact no-ops on a timer
that is already stopped or was never started (`Stopped`, no thread); all are
total functions, so they cannot throw or block. -/
theorem stop_is_final_and_idempotent (y y2 : Sys) (envs : List IterEnv)
    (h2 : y2.loop.ctl.state_ = .Stopped) (hl : y2.live = 0) :
    is_stopped (stopSys y).loop.ctl = true ∧
    (stopSys y).live = 0 ∧
    Action.notify ∈ stopBody ∧
    run (stopSys y).os (stopSys y).loop envs = (stopSys y).loop ∧
    stopSys (stopSys y) = stopSys y ∧
    stopSys y2 = y2 ∧
    pauseSys y2 = y2 ∧
    resumeSys y2 = y2 := by
  obtain ⟨⟨⟨st, iv, ch⟩, nt, f, dg⟩, os, lv⟩ := y
  obtain ⟨⟨⟨st2, iv2, ch2⟩, nt2, f2, dg2⟩, os2, lv2⟩ := y2
  simp only [Sys.loop, LoopSt.ctl, Ctl.state_] at h2
  simp only [Sys.live] at hl
  subst h2; subst hl
  exact ⟨rfl, rfl, by decide, run_stopped _ _ _ rfl, rfl, rfl, rfl, rfl⟩

/-- C6 witness: stopping a running timer with one live loop leaves it
stopped with no live thread and inert under further events, and the control
operations are no-ops on a freshly constructed timer. -/
theorem stop_is_final_and_idempotent_witness :
    is_stopped (stopSys ⟨⟨⟨.Running, 50, false⟩, 100, 2, 0⟩, false, 1⟩).loop.ctl = true ∧
    (stopSys ⟨⟨⟨.Running, 50, false⟩, 100, 2, 0⟩, false, 1⟩).live = 0 ∧
    Action.notify ∈ stopBody ∧
    run (stopSys ⟨⟨⟨.Running, 50, false⟩, 100, 2, 0⟩, false, 1⟩).os
        (stopSys ⟨⟨⟨.Running, 50, false⟩, 100, 2, 0⟩, false, 1⟩).loop [⟨[], 0, [], false⟩] =
      (stopSys ⟨⟨⟨.Running, 50, false⟩, 100, 2, 0⟩, false, 1⟩).loop ∧
    stopSys (stopSys ⟨⟨⟨.Running, 50, false⟩, 100, 2, 0⟩, false, 1⟩) =
      stopSys ⟨⟨⟨.Running, 50, false⟩, 100, 2, 0⟩, false, 1⟩ ∧
    stopSys (mkTimer 5 false) = mkTimer 5 false ∧
    pauseSys (mkTimer 5 false) = mkTimer 5 false ∧
    resumeSys (mkTimer 5 false) = mkTimer 5 false :=
  stop_is_final_and_idempotent ⟨⟨⟨.Running, 50, false⟩, 100, 2, 0⟩, false, 1⟩
    (mkTimer 5 false) [⟨[], 0, [], false⟩] rfl rfl

/-- C7: while `Paused` and undisturbed the loop stays blocked in the gate
and fires nothing; a `resume` at time `t` makes the paused wait return and
recompute the deadline as `t` plus the interval, never inheriting the stale
one; and the following undisturbed fire happens exactly one full interval
after the resume instant, with no missed fires owed. -/
theorem paused_no_fire_resume_restarts (s : LoopSt) (t n : Int) (os : Bool)
    (hp : s.ctl.state_ = .Paused) (hc : s.ctl.interval_changed_ = false) :
    loopIter os ⟨[], n, [], false⟩ s = .blocked s ∧
    pausePhase s.next_time s.ctl [(.resume, t)] =
      .done { s.ctl with state_ := .Running } (t + s.ctl.interval_) ∧
    loopIter false ⟨[(.resume, t)], n, [], false⟩ s =
      .cont { ctl := { s.ctl with state_ := .Running },
              next_time := (t + s.ctl.interval_) + s.ctl.interval_,
              fires := s.fires + 1, diags := s.diags } := by
  obtain ⟨⟨st, iv, ch⟩, nt, f, dg⟩ := s
  simp only [Ctl.state_] at hp
  simp only [Ctl.interval_changed_] at hc
  subst hp; subst hc
  exact ⟨rfl, rfl, rfl⟩

/-- C7 witness: a paused timer with interval 50 and stale deadline 100 stays
blocked with no fire; resumed at time 160 its deadline becomes 210, and the
fire after resume advances to 260 — one full interval past the resume. -/
theorem paused_no_fire_resume_restarts_witness :
    loopIter false ⟨[], 0, [], false⟩ ⟨⟨.Paused, 50, false⟩, 100, 1, 0⟩ =
      .blocked ⟨⟨.Paused, 50, false⟩, 100, 1, 0⟩ ∧
    pausePhase 100 ⟨.Paused, 50, false⟩ [(.resume, 160)] =
      .done ⟨.Running, 50, false⟩ 210 ∧
    loopIter false ⟨[(.resume, 160)], 0, [], false⟩ ⟨⟨.Paused, 50, false⟩, 100, 1, 0⟩ =
      .cont ⟨⟨.Running, 50, false⟩, 260, 2, 0⟩ :=
  paused_no_fire_resume_restarts ⟨⟨.Paused, 50, false⟩, 100, 1, 0⟩ 160 0 false rfl rfl

/-- C8: `start` reaches zero live loops by running `stop` (which joins)
before it marks the state `Running` and before it spawns the new loop, so
with at most one loop alive beforehand every intermediate point of `start`
has at most one live loop and exactly one exists afterwards; starting from
any state equals starting from the fully stopped timer. -/
theorem start_single_loop_invariant (y : Sys) (now0 : Int) (h : y.live ≤ 1) :
    y.live ≤ 1 ∧
    (stopSys y).live = 0 ∧
    (startMid y).live = 0 ∧
    (startSys y now0).live = 1 ∧
    is_running (startSys y now0).loop.ctl = true ∧
    startSys y now0 = startSys (stopSys y) now0 := by
  exact ⟨h, rfl, rfl, rfl, rfl, rfl⟩

/-- C8 witness: restarting a timer that is already running one loop passes
through zero live loops and ends with exactly one. -/
theorem start_single_loop_invariant_witness :
    (⟨⟨⟨.Running, 50, false⟩, 100, 2, 0⟩, false, 1⟩ : Sys).live ≤ 1 ∧
    (stopSys ⟨⟨⟨.Running, 50, false⟩, 100, 2, 0⟩, false, 1⟩).live = 0 ∧
    (startMid ⟨⟨⟨.Running, 50, false⟩, 100, 2, 0⟩, false, 1⟩).live = 0 ∧
    (startSys ⟨⟨⟨.Running, 50, false⟩, 100, 2, 0⟩, false, 1⟩ 7).live = 1 ∧
    is_running (startSys ⟨⟨⟨.Running, 50, false⟩, 100, 2, 0⟩, false, 1⟩ 7).loop.ctl = true ∧
    startSys ⟨⟨⟨.Running, 50, false⟩, 100, 2, 0⟩, false, 1⟩ 7 =
      startSys (stopSys ⟨⟨⟨.Running, 50, false⟩, 100, 2, 0⟩, false, 1⟩) 7 :=
  start_single_loop_invariant ⟨⟨⟨.Running, 50, false⟩, 100, 2, 0⟩, false, 1⟩ 7 (by decide)

/-- C9 counterexample: the claim that every control operation acquires the
mutex of the gate before mutating the shared fields is false — the bodies of
`pause`, `resume` and `stop` write `state_` at lock depth zero. -/
theorem control_ops_write_unlocked :
    writesLocked 0 pauseBody = false ∧
    writesLocked 0 resumeBody = false ∧
    writesLocked 0 stopBody = false := by decide

/-- C9 amended: only `set_interval` acquires the mutex around its writes to
the shared fields and signals afterwards; `pause`, `resume` and `stop`
store to the atomic `state_` without acquiring the mutex, `resume` and
`stop` signal the gate without holding it, and `pause` does not signal at
all, so those mutations are not serialized against the wait of the loop. -/
theorem only_set_interval_locks :
    writesLocked 0 setIntervalBody = true ∧
    Action.notify ∈ setIntervalBody ∧
    Action.lock ∉ pauseBody ∧
    Action.lock ∉ resumeBody ∧
    Action.lock ∉ stopBody ∧
    Action.write .stateF ∈ pauseBody ∧
    Action.write .stateF ∈ resumeBody ∧
    Action.write .stateF ∈ stopBody ∧
    Action.notify ∈ resumeBody ∧
    Action.notify ∈ stopBody ∧
    Action.notify ∉ pauseBody := by decide

/-- C10: `interval()` applies `duration_cast` to milliseconds, dividing the
stored tick count by 10^6 truncating toward zero: a stored whole number of
milliseconds reads back exactly, while 1500 microseconds reads back as 1
millisecond and 500 microseconds as 0. -/
theorem interval_roundtrip_truncates (c : Ctl) (d k : Int)
    (h : d = 1000000 * k) :
    interval (applyOp (.set_interval d) c) = k ∧
    interval (applyOp (.set_interval 1500000) c) = 1 ∧
    interval (applyOp (.set_interval 500000) c) = 0 := by
  refine ⟨?_, ?_, ?_⟩
  · simp only [interval, applyOp, h]
    exact Int.mul_tdiv_cancel_left k (by norm_num)
  · simp only [interval, applyOp]
    decide
  · simp only [interval, applyOp]
    decide

/-- C10 witness: setting three whole milliseconds reads back as 3, and the
fractional examples truncate as stated. -/
theorem interval_roundtrip_truncates_witness :
    interval (applyOp (.set_interval 3000000) (mkCtl 0)) = 3 ∧
    interval (applyOp (.set_interval 1500000) (mkCtl 0)) = 1 ∧
    interval (applyOp (.set_interval 500000) (mkCtl 0)) = 0 :=
  interval_roundtrip_truncates (mkCtl 0) 3000000 3 rfl

end SimpleTimer
